import Mathlib

/-!
Verification development for the hdfesse HDFS client (libhdfesse).

This file shallowly embeds the parts of the source that the checked
properties are about:

* the RPC response decoding and error taxonomy of libhdfesse/src/rpc.rs
  (RpcStatus, RpcErrorCode, RpcError, ERROR_CLASS_MAP, the response
  classification in HdfsConnection::call, and the call-id counter
  InfiniteSeq);
* the high-availability retry loop of libhdfesse/src/ha_rpc.rs
  (HaHdfsConnection::try_connect and HaHdfsConnection::call);
* the directory-listing pagination of libhdfesse/src/fs_ls.rs
  (LsGroupIterator::next_group / next, LsIterator::ensure_new_data /
  next / size_hint);
* the path / resolver model of libhdfesse/src/path.rs (UriResolver::
  resolve, UriResolver::resolve_path, Path::to_path_string, Display);
* the filesystem facade of libhdfesse/src/fs.rs (ensure_not_dir,
  Hdfs::get_file_info, Hdfs::delete, Hdfs::get_status, Hdfs::set_time).

Conventions of the embedding:

* Stateful Rust methods become functions from explicit state to
  (result, state) pairs; the network is an explicit oracle record.
* Machine-integer overflow is treated as a program error: an i32
  increment or a u64 multiplication that overflows is modelled as the
  checked operation returning none (Rust panics on overflow under
  debug assertions; overflow is a program error either way).  A
  panicking computation (such as Option::unwrap on None) is likewise
  modelled by an Option result with none for the panic.
* Byte strings (Vec of u8) are List Nat; protobuf strings are String.
-/

namespace Hdfesse

/-! ## rpc.rs: status, error codes, error taxonomy -/

/-- RpcResponseHeaderProto_RpcStatusProto (three-valued response status). -/
inductive RpcStatus where
  | SUCCESS
  | ERROR
  | FATAL
deriving DecidableEq, Repr

/-- RpcResponseHeaderProto_RpcErrorCodeProto (subset of the proto enum that
the client inspects; ERROR_APPLICATION is the one pattern-matched by the
HA layer). -/
inductive RpcErrorCode where
  | ERROR_APPLICATION
  | ERROR_NO_SUCH_METHOD
  | ERROR_NO_SUCH_PROTOCOL
  | ERROR_RPC_SERVER
  | ERROR_SERIALIZING_RESPONSE
  | ERROR_RPC_VERSION_MISMATCH
  | FATAL_UNKNOWN
  | FATAL_UNSUPPORTED_SERIALIZATION
  | FATAL_INVALID_RPC_HEADER
  | FATAL_DESERIALIZING_REQUEST
  | FATAL_VERSION_MISMATCH
  | FATAL_UNAUTHORIZED
deriving DecidableEq, Repr

/-- RpcErrorKind from rpc.rs (structured kind for recognised exception
classes). -/
inductive RpcErrorKind where
  | Snapshot
deriving DecidableEq, Repr

/-- RpcError from rpc.rs.  Transport errors carry an abstract message. -/
inductive RpcError where
  | connector (e : String)
  | noUser (e : String)
  | io (e : String)
  | protobuf (e : String)
  | knownError (status : RpcStatus) (kind : RpcErrorKind) (errorMsg : String)
      (errorDetail : RpcErrorCode) (exception : String) (method : String)
  | errorResponse (status : RpcStatus) (errorMsg : String)
      (errorDetail : RpcErrorCode) (exception : String) (method : String)
  | fatalResponse (status : RpcStatus) (errorMsg : String)
      (errorDetail : RpcErrorCode) (exception : String) (method : String)
  | incompleteResponse
deriving DecidableEq, Repr

/-- ERROR_CLASS_MAP from rpc.rs, verbatim: a compile-time map from
exception class name to RpcErrorKind.  The single key is transcribed
exactly as it appears in the source (with slashes). -/
def ERROR_CLASS_MAP : List (String × RpcErrorKind) :=
  [("org/apache/hadoop/hdfs/protocol/SnapshotException", RpcErrorKind.Snapshot)]

/-- Lookup in ERROR_CLASS_MAP (phf::Map::get). -/
def errorClassLookup (s : String) : Option RpcErrorKind :=
  ERROR_CLASS_MAP.lookup s

/-- RpcResponseHeaderProto: the fields of the response header that
HdfsConnection::call reads. -/
structure RpcResponseHeaderProto where
  status : RpcStatus
  errorMsg : String
  errorDetail : RpcErrorCode
  exceptionClassName : String
deriving DecidableEq, Repr

/-- The response-classification tail of HdfsConnection::call in rpc.rs:
given the decoded response header (and, for SUCCESS, the decoded response
message), produce the Result the call returns.  On ERROR the exception
class name is looked up in ERROR_CLASS_MAP: a hit produces
RpcError::KnownError with the mapped kind, a miss produces
RpcError::ErrorResponse; FATAL produces RpcError::FatalResponse. -/
def decodeResponse {Output : Type} (methodName : String)
    (header : RpcResponseHeaderProto) (payload : Output) :
    Except RpcError Output :=
  match header.status with
  | .SUCCESS => .ok payload
  | .ERROR =>
    match errorClassLookup header.exceptionClassName with
    | some kind =>
      .error (.knownError header.status kind header.errorMsg
        header.errorDetail header.exceptionClassName methodName)
    | none =>
      .error (.errorResponse header.status header.errorMsg
        header.errorDetail header.exceptionClassName methodName)
  | .FATAL =>
    .error (.fatalResponse header.status header.errorMsg
      header.errorDetail header.exceptionClassName methodName)

/-! ## rpc.rs: InfiniteSeq (call-id counter)

InfiniteSeq holds an i32 starting at -1; next() increments and returns
the new value.  The increment is the checked i32 operation: if the value
would exceed 2^31 - 1 the program errors out (modelled as none). -/

/-- Largest i32 value. -/
def i32Max : Int := 2 ^ 31 - 1

/-- Checked i32 increment: some (v + 1) while it fits in i32, none on
overflow (Rust panics on overflow, and overflow is a program error). -/
def i32CheckedSucc (v : Int) : Option Int :=
  if v + 1 ≤ i32Max then some (v + 1) else none

/-- InfiniteSeq from rpc.rs: the call-id counter value. -/
structure InfiniteSeq where
  val : Int
deriving DecidableEq, Repr

/-- InfiniteSeq::new: the sequence starts with 0, so val starts at -1. -/
def InfiniteSeq.new : InfiniteSeq := ⟨-1⟩

/-- InfiniteSeq::next: increment val and return it. -/
def InfiniteSeq.next (s : InfiniteSeq) : Option (Int × InfiniteSeq) :=
  (i32CheckedSucc s.val).map fun v => (v, ⟨v⟩)

/-- State of the counter after n draws (each regular call and the final
shutdown message draw one value each, in order). -/
def seqAfter : Nat → Option InfiniteSeq
  | 0 => some InfiniteSeq.new
  | n + 1 => (seqAfter n).bind fun s => (s.next).map Prod.snd

/-- The call-id transmitted by the k-th message (0-indexed) of a
connection: the k-th value drawn from the counter, if the draw
succeeds. -/
def callIdAt (k : Nat) : Option Int :=
  (seqAfter k).bind fun s => (s.next).map Prod.fst

/-- The reserved call-id used for the connection handshake header
(init_connection sets callId to -3). -/
def handshakeCallId : Int := -3

/-- The reserved retry-count sentinel (every header sets retryCount
to -1). -/
def retryCountSentinel : Int := -1

/-! ## ha_rpc.rs: HaHdfsConnection

The HA connection keeps at most one live HdfsConnection (current), a
cyclic iterator over endpoint addresses, and the endpoint count
(connection_num).  Connections are identified here by the index of the
connect attempt that created them; the cyclic iterator is modelled by
the running attempt index (the environment maps it to an endpoint).

The environment gives the outcome of the i-th connect attempt and of a
call on the connection created by the i-th attempt. -/

/-- Oracle for the HA loop: connect i is the result of the i-th connect
attempt (HdfsConnection::new_with_user), callOn i the result of
HdfsConnection::call on the connection the i-th attempt produced. -/
structure HaEnv (Output : Type) where
  connect : Nat → Except RpcError Unit
  callOn : Nat → Except RpcError Output

/-- Mutable state of HaHdfsConnection: the live connection (by creating
attempt index) and the position of the cyclic address iterator. -/
structure HaState where
  current : Option Nat
  pos : Nat
deriving DecidableEq, Repr

/-- The standby test in HaHdfsConnection::call: the result is an
ErrorResponse with error_detail ERROR_APPLICATION whose exception class
is exactly org.apache.hadoop.ipc.StandbyException.  (A KnownError never
matches, mirroring the pattern match on the ErrorResponse variant.) -/
def isStandbyError {Output : Type} (res : Except RpcError Output) : Bool :=
  match res with
  | .error (.errorResponse _ _ .ERROR_APPLICATION exception _) =>
    exception == "org.apache.hadoop.ipc.StandbyException"
  | _ => false

/-- The retry loop of HaHdfsConnection::call for the case where no
connection is live, fused with try_connect.  The Nat argument is
attempts_left.  Each step of try_connect's for loop decrements
attempts_left and tries the next address; on connect success the call is
forwarded; a standby-classified error discards the connection and
re-enters try_connect with last_err reset to None.  When attempts_left
reaches 0, try_connect returns Err(last_err.unwrap()): none models the
panic of unwrap when last_err is None. -/
def haGo {Output : Type} (env : HaEnv Output) (pos : Nat)
    (lastErr : Option RpcError) :
    Nat → Option (Except RpcError Output × HaState)
  | 0 => lastErr.map fun e => (.error e, ⟨none, pos⟩)
  | n + 1 =>
    match env.connect pos with
    | .error e => haGo env (pos + 1) (some e) n
    | .ok _ =>
      let res := env.callOn pos
      if isStandbyError res then haGo env (pos + 1) none n
      else some (res, ⟨some pos, pos + 1⟩)

/-- HaHdfsConnection::call: attempts_left starts at connection_num; a
live connection is used first without consuming budget (failing over on
a standby error), otherwise the loop starts at try_connect. -/
def haCall {Output : Type} (env : HaEnv Output) (st : HaState)
    (connectionNum : Nat) : Option (Except RpcError Output × HaState) :=
  match st.current with
  | some c =>
    let res := env.callOn c
    if isStandbyError res then haGo env st.pos none connectionNum
    else some (res, st)
  | none => haGo env st.pos none connectionNum

/-! ## fs.rs: FsError / HdfsError (the parts the facade uses) -/

/-- FsError from fs.rs. -/
inductive FsError where
  | path (e : String)
  | notFound (p : String)
  | rpc (e : RpcError)
  | notDir (p : String)
  | isDir (p : String)
  | fileExists (p : String)
deriving DecidableEq, Repr

/-- HdfsErrorKind from fs.rs: which side of the operation failed. -/
inductive HdfsErrorKind where
  | Src
  | Dst
  | Op
deriving DecidableEq, Repr

/-- HdfsError from fs.rs: a kind tag plus the underlying FsError. -/
structure HdfsError where
  kind : HdfsErrorKind
  source : FsError
deriving DecidableEq, Repr

/-- HdfsError::src. -/
def HdfsError.src (e : FsError) : HdfsError := ⟨.Src, e⟩

/-- HdfsError::dst. -/
def HdfsError.dst (e : FsError) : HdfsError := ⟨.Dst, e⟩

/-- HdfsError::op. -/
def HdfsError.op (e : FsError) : HdfsError := ⟨.Op, e⟩

/-! ## fs_ls.rs: LsGroupIterator and LsIterator -/

/-- HdfsFileStatusProto_FileType. -/
inductive FileType where
  | IS_DIR
  | IS_FILE
  | IS_SYMLINK
deriving DecidableEq, Repr

/-- The fields of HdfsFileStatusProto that the verified code paths read:
the file type (facade prechecks) and the raw path bytes (listing
cursor).  The remaining fields of the proto record are irrelevant to
the claims and are not modelled. -/
structure HdfsFileStatusProto where
  fileType : FileType
  path : List Nat
deriving DecidableEq, Repr

/-- Oracle for ClientNamenodeService::getListing: maps the startAfter
cursor bytes to the reply (partial listing and remainingEntries).  The
claims fix src and needLocation, so the oracle is indexed by the cursor
only. -/
structure LsEnv where
  getListing : List Nat → Except RpcError (List HdfsFileStatusProto × Nat)

/-- State of LsGroupIterator (fs_ls.rs): last returned raw name, total
expected length once known, and the count of entries received. -/
structure LsGroupState where
  prevName : Option (List Nat)
  len : Option Nat
  count : Nat
deriving DecidableEq, Repr

/-- Fresh LsGroupIterator state (LsGroupIterator::new). -/
def LsGroupState.init : LsGroupState := ⟨none, none, 0⟩

/-- The cursor that the next next_group call sends:
self.prev_name.take().unwrap_or_default(). -/
def LsGroupState.listFrom (s : LsGroupState) : List Nat :=
  s.prevName.getD []

/-- LsGroupIterator::next_group.  prev_name is taken (left None) before
the call; on success count and len are updated and prev_name becomes
the raw path of the last element of the partial list (None when the
partial list is empty).  The returned count is remainingEntries plus
the partial list length (remaining including this group). -/
def nextGroup (env : LsEnv) (s : LsGroupState) :
    Except RpcError (Nat × List HdfsFileStatusProto) × LsGroupState :=
  let listFrom := s.listFrom
  let staken : LsGroupState := { s with prevName := none }
  match env.getListing listFrom with
  | .error e => (.error e, staken)
  | .ok (partialList, remainingLen) =>
    let count' := staken.count + partialList.length
    let len' := some (count' + remainingLen)
    let prev' := partialList.getLast?.map HdfsFileStatusProto.path
    (.ok (remainingLen + partialList.length, partialList),
      { prevName := prev', len := len', count := count' })

/-- Iterator::next for LsGroupIterator: None once count has reached the
known total, otherwise one next_group call (errors wrapped in
FsError::Rpc). -/
def lsGroupNext (env : LsEnv) (s : LsGroupState) :
    Option (Except FsError (Nat × List HdfsFileStatusProto)) × LsGroupState :=
  if (s.len.map fun len => decide (s.count ≥ len)).getD false then (none, s)
  else
    match nextGroup env s with
    | (.error e, s') => (some (.error (.rpc e)), s')
    | (.ok g, s') => (some (.ok g), s')

/-- State of the flattening LsIterator (fs_ls.rs), generic over the
group-iterator state σ, the item type I and the error type E: the inner
iterator (None once terminated), the current chunk (Ok: items not yet
yielded; Err: a pending error), and the expected remaining count. -/
structure LsIterState (σ I E : Type) where
  gi : Option σ
  current : Except E (List I)
  expected : Nat

/-- LsIterator::ensure_new_data: fetch a new chunk from the group
iterator if the current chunk is an exhausted Ok.  giNext is the group
iterator's next function. -/
def ensureNewData {σ I E : Type}
    (giNext : σ → Option (Except E (Nat × List I)) × σ)
    (s : LsIterState σ I E) : LsIterState σ I E :=
  match s.gi with
  | none => s
  | some g =>
    let shouldFetch :=
      match s.current with
      | .ok it => decide (it.length = 0)
      | .error _ => false
    if shouldFetch then
      if s.expected = 0 then { s with gi := none }
      else
        match giNext g with
        | (none, _) => { s with gi := none }
        | (some (.ok (expected, newData)), g') =>
          { gi := some g', current := .ok newData, expected := expected }
        | (some (.error e), g') =>
          { gi := some g', current := .error e, expected := 1 }
    else s

/-- LsIterator::new: a fake expected value of 1 forces the first fetch. -/
def lsIterNew {σ I E : Type}
    (giNext : σ → Option (Except E (Nat × List I)) × σ)
    (g : σ) : LsIterState σ I E :=
  ensureNewData giNext { gi := some g, current := .ok [], expected := 1 }

/-- Iterator::size_hint for LsIterator: expected plus the unconsumed
part of the current chunk, as (saturating decrement, Some upper). -/
def lsSizeHint {σ I E : Type} (s : LsIterState σ I E) : Nat × Option Nat :=
  let remainLen :=
    match s.gi with
    | some _ =>
      s.expected + (match s.current with | .ok it => it.length | .error _ => 0)
    | none => 0
  (remainLen - 1, some remainLen)

/-- Iterator::next for LsIterator: ensure data, then pop from the
current chunk; a stored error is yielded once and terminates the
iterator. -/
def lsNext {σ I E : Type}
    (giNext : σ → Option (Except E (Nat × List I)) × σ)
    (s : LsIterState σ I E) :
    Option (Except E I) × LsIterState σ I E :=
  let s := ensureNewData giNext s
  match s.gi with
  | none => (none, s)
  | some _ =>
    match s.current with
    | .ok [] => (none, s)
    | .ok (x :: xs) => (some (.ok x), { s with current := .ok xs })
    | .error e => (some (.error e), { s with current := .ok [], gi := none })

/-- Drive the flattening iterator with fuel, collecting the yielded
items until it returns None (or fuel runs out). -/
def lsDrive {σ I E : Type}
    (giNext : σ → Option (Except E (Nat × List I)) × σ) :
    Nat → LsIterState σ I E → List (Except E I) × LsIterState σ I E
  | 0, s => ([], s)
  | n + 1, s =>
    match lsNext giNext s with
    | (none, s') => ([], s')
    | (some r, s') =>
      let (rest, sFin) := lsDrive giNext n s'
      (r :: rest, sFin)

/-! ## path.rs: Path and UriResolver

A Path wraps a uriparse URIReference: optional scheme, optional
authority (user, optional password, host, optional port) and a
segmented path with an absolute flag.  Paths parsed by
hdfs_path_to_uri never carry a query or fragment (the builder sets
only scheme, authority and path, and the characters ? and # of the
input end up percent-encoded inside the path), so the model omits the
query and fragment components; UriResolver::resolve drops them anyway
when rebuilding from parts.  Segments are carried in decoded textual
form: the percent-encoding applied at parse time is undone on every
render, and none of the verified operations distinguishes the two
representations. -/

/-- uriparse Host: the resolver treats only RegisteredName hosts
specially, so the host kind is part of the model. -/
inductive UriHost where
  | registeredName (name : String)
  | ipv4 (addr : String)
  | ipv6 (addr : String)
deriving DecidableEq, Repr

/-- uriparse Authority. -/
structure UriAuthority where
  username : Option String
  password : Option String
  host : UriHost
  port : Option Nat
deriving DecidableEq, Repr

/-- uriparse Path: absolute flag plus segments. -/
structure UriPath where
  absolute : Bool
  segments : List String
deriving DecidableEq, Repr

/-- uriparse URIReference (query/fragment omitted, see section
comment).  This is the payload of path.rs's Path. -/
structure URIRef where
  scheme : Option String
  authority : Option UriAuthority
  path : UriPath
deriving DecidableEq, Repr

/-- uriparse URIReference::is_relative_path_reference: no scheme, no
authority, path not absolute. -/
def URIRef.isRelativePathReference (u : URIRef) : Bool :=
  u.scheme.isNone && u.authority.isNone && !u.path.absolute

/-- uriparse URIReference::is_absolute_path_reference: no scheme, no
authority, absolute path. -/
def URIRef.isAbsolutePathReference (u : URIRef) : Bool :=
  u.scheme.isNone && u.authority.isNone && u.path.absolute

/-- One step of dot-segment removal over a reversed stack of processed
segments (uriparse Path::normalize): a dot segment disappears, a
dot-dot pops the preceding segment when there is one to pop (it is kept
in a relative path that has run out of segments, and dropped at the
root of an absolute path). -/
def normStep (absolute : Bool) (stack : List String) (seg : String) :
    List String :=
  if seg = "." then stack
  else if seg = ".." then
    match stack with
    | [] => if absolute then [] else [".."]
    | top :: rest => if top = ".." then seg :: stack else rest
  else seg :: stack

/-- uriparse Path::normalize on the segment list. -/
def normalizeSegments (absolute : Bool) (segs : List String) : List String :=
  (segs.foldl (normStep absolute) []).reverse

/-- uriparse Path::normalize: dot-segment removal; a path always keeps
at least one (possibly empty) segment. -/
def normalizePath (p : UriPath) : UriPath :=
  let segs := normalizeSegments p.absolute p.segments
  { absolute := p.absolute, segments := if segs = [] then [""] else segs }

/-- Render of a uriparse Path (used by to_path_string and Display,
after percent-decoding, which the model's decoded segments make the
identity). -/
def UriPath.render (p : UriPath) : String :=
  (if p.absolute then "/" else "") ++ String.intercalate "/" p.segments

/-- Render of a uriparse Host. -/
def UriHost.render : UriHost → String
  | .registeredName n => n
  | .ipv4 a => a
  | .ipv6 a => "[" ++ a ++ "]"

/-- Render of a uriparse Authority (authority.to_string()). -/
def UriAuthority.render (a : UriAuthority) : String :=
  (match a.username with
   | some u =>
     u ++ (match a.password with | some pw => ":" ++ pw | none => "") ++ "@"
   | none => "") ++
  a.host.render ++
  (match a.port with | some p => ":" ++ toString p | none => "")

/-- Path::to_path_string: the rendered (decoded) path component, with
the empty render replaced by a dot. -/
def URIRef.toPathString (u : URIRef) : String :=
  let s := u.path.render
  if s = "" then "." else s

/-- uri_path_to_hdfs_path, the Display impl of Path: scheme and
authority rendered undecoded, path decoded, empty result replaced by a
dot (parsed paths carry no fragment, see the section comment). -/
def URIRef.render (u : URIRef) : String :=
  let s :=
    (match u.scheme with | some sc => sc ++ ":" | none => "") ++
    (match u.authority with | some a => "//" ++ a.render | none => "") ++
    u.path.render
  if s = "" then "." else s

/-- UriResolver from path.rs.  Its default_uri is a uriparse URI, whose
scheme is mandatory, and UriResolver::new always installs an authority
(user, optional password, host, no port), so scheme and authority are
carried without Option here. -/
structure UriResolver where
  scheme : String
  authority : UriAuthority
  path : UriPath

/-- The default URI viewed as a URIReference (URI into URIReference
conversion used at the top of each resolve branch). -/
def UriResolver.defaultRef (r : UriResolver) : URIRef :=
  ⟨some r.scheme, some r.authority, r.path⟩

/-- The authority fix-up of UriResolver::resolve's full-URI branch: a
missing user is defaulted from the default URI, and an empty
registered-name host inherits the default host and port. -/
def adjustAuthority (r : UriResolver) (a : UriAuthority) : UriAuthority :=
  let a1 := if a.username.isNone
    then { a with username := r.authority.username } else a
  match a1.host with
  | .registeredName rn =>
    if rn = "" then { a1 with host := r.authority.host, port := r.authority.port }
    else a1
  | _ => a1

/-- UriResolver::resolve from path.rs.  Three branches: a relative path
reference appends its segments to the default path and normalizes; an
absolute path reference replaces the default path; anything else (a
full URI) keeps its own scheme/authority/path with missing pieces
defaulted.  The error paths of the original (segment push and component
set failures of uriparse) cannot fire on well-formed components, so the
model is total. -/
def UriResolver.resolve (r : UriResolver) (p : URIRef) : URIRef :=
  if p.isRelativePathReference then
    let resPath : UriPath :=
      { absolute := r.path.absolute,
        segments := r.path.segments ++ p.path.segments }
    { scheme := some r.scheme, authority := some r.authority,
      path := normalizePath resPath }
  else if p.isAbsolutePathReference then
    { scheme := some r.scheme, authority := some r.authority, path := p.path }
  else
    { scheme := match p.scheme with | some s => some s | none => some r.scheme,
      authority := match p.authority with
        | none => some r.authority
        | some a => some (adjustAuthority r a),
      path := p.path }

/-- UriResolver::resolve_path from path.rs: a relative path reference
becomes the default path extended with the input segments, normalized,
wrapped in a bare path-only reference; everything else is returned
unchanged (the Cow::Borrowed case). -/
def UriResolver.resolvePath (r : UriResolver) (p : URIRef) : URIRef :=
  if p.isRelativePathReference then
    let resPath : UriPath :=
      { absolute := r.path.absolute,
        segments := r.path.segments ++ p.path.segments }
    { scheme := none, authority := none, path := normalizePath resPath }
  else p

/-! ## fs.rs: facade operations -/

/-- ensure_not_dir from fs.rs: Ok unless the file status is a
directory, in which case an IsDir error with the given kind tag. -/
def ensure_not_dir (fileInfo : HdfsFileStatusProto) (path : String)
    (kind : HdfsErrorKind) : Except HdfsError Unit :=
  if fileInfo.fileType ≠ FileType.IS_DIR then .ok ()
  else .error ⟨kind, .isDir path⟩

/-- A service call issued by the facade, for tracking which RPCs an
operation performs. -/
inductive SvcCall where
  | getFileInfo (src : String)
  | delete (src : String) (recursive : Bool)
  | setTimes (src : String) (mtime : Option Nat) (atime : Option Nat)
  | getFsStats
deriving DecidableEq, Repr

/-- Oracle for the service layer as seen by the facade: the reply of
getFileInfo (None when the server reports no such entry) and of
delete. -/
structure SvcEnv where
  fileInfo : String → Except RpcError (Option HdfsFileStatusProto)
  deleteRes : String → Bool → Except RpcError Bool

/-- Hdfs::get_file_info from fs.rs: resolve the path, call getFileInfo,
map an absent entry to FsError::NotFound carrying the resolved path
string.  Returns the issued service calls alongside the result. -/
def getFileInfoFacade (env : SvcEnv) (r : UriResolver) (p : URIRef) :
    Except FsError HdfsFileStatusProto × List SvcCall :=
  let src := r.resolvePath p
  let s := src.toPathString
  match env.fileInfo s with
  | .error e => (.error (.rpc e), [.getFileInfo s])
  | .ok none => (.error (.notFound s), [.getFileInfo s])
  | .ok (some fi) => (.ok fi, [.getFileInfo s])

/-- Hdfs::delete from fs.rs: resolve the path; when recursive is false,
fetch the file info (of the original path, resolved again inside
get_file_info) and require a non-directory via ensure_not_dir (the
error message renders the original path); only then issue the delete
RPC with the resolved path, mapping RPC failures through
FsError::Rpc and HdfsError::src. -/
def deleteFacade (env : SvcEnv) (r : UriResolver) (p : URIRef)
    (recursive : Bool) : Except HdfsError Bool × List SvcCall :=
  let pathRes := r.resolvePath p
  let pre : Except HdfsError Unit × List SvcCall :=
    if !recursive then
      match getFileInfoFacade env r p with
      | (.error e, tr) => (.error (HdfsError.src e), tr)
      | (.ok fi, tr) =>
        match ensure_not_dir fi p.render .Src with
        | .error he => (.error he, tr)
        | .ok () => (.ok (), tr)
    else (.ok (), [])
  match pre with
  | (.error he, tr) => (.error he, tr)
  | (.ok (), tr) =>
    let s := pathRes.toPathString
    match env.deleteRes s recursive with
    | .error e => (.error (HdfsError.src (.rpc e)), tr ++ [.delete s recursive])
    | .ok result => (.ok result, tr ++ [.delete s recursive])

/-- GetFsStatsResponseProto: the server's counters (all u64). -/
structure GetFsStatsResponseProto where
  capacity : Nat
  used : Nat
  remaining : Nat
  under_replicated : Nat
  corrupt_blocks : Nat
  missing_blocks : Nat
  missing_repl_one_blocks : Nat
  blocks_in_future : Nat
  pending_deletion_blocks : Nat
deriving DecidableEq, Repr

/-- FsStatus from fs.rs: the domain record the facade returns. -/
structure FsStatus where
  capacity : Nat
  used : Nat
  remaining : Nat
  under_replicated : Nat
  corrupt_blocks : Nat
  missing_blocks : Nat
  missing_repl_one_blocks : Nat
  blocks_in_future : Nat
  pending_deletion_blocks : Nat
deriving DecidableEq, Repr

/-- Hdfs::get_status from fs.rs: field-for-field projection of the
getFsStats reply, transcribed exactly as the source maps the counters
(in particular the remaining field is filled from stats.get_used()),
with errors wrapped by HdfsError::op. -/
def getStatusFacade (resp : Except RpcError GetFsStatsResponseProto) :
    Except HdfsError FsStatus :=
  match resp with
  | .ok stats =>
    .ok { capacity := stats.capacity
          used := stats.used
          remaining := stats.used
          under_replicated := stats.under_replicated
          corrupt_blocks := stats.corrupt_blocks
          missing_blocks := stats.missing_blocks
          missing_repl_one_blocks := stats.missing_repl_one_blocks
          blocks_in_future := stats.blocks_in_future
          pending_deletion_blocks := stats.pending_deletion_blocks }
  | .error e => .error (HdfsError.op (.rpc e))

/-- SetTimesRequestProto: optional u64 fields; None models the proto
field left unset. -/
structure SetTimesRequestProto where
  src : String
  mtime : Option Nat
  atime : Option Nat
deriving DecidableEq, Repr

/-- Checked u64 multiplication: some (a * b) while the product fits in
64 bits, none on overflow (a program error, panic under debug
assertions). -/
def u64CheckedMul (a b : Nat) : Option Nat :=
  if a * b < 2 ^ 64 then some (a * b) else none

/-- Hdfs::set_time from fs.rs, up to the request it transmits: resolve
the path, set src, and for each present time argument store the
argument times 1000 (seconds to milliseconds); an absent argument
leaves the field unset.  none models the overflow panic of the u64
multiplication. -/
def setTimeRequest (r : UriResolver) (p : URIRef)
    (mtime atime : Option Nat) : Option SetTimesRequestProto :=
  let pathRes := r.resolvePath p
  let args : SetTimesRequestProto :=
    { src := pathRes.toPathString, mtime := none, atime := none }
  let withM : Option SetTimesRequestProto :=
    match mtime with
    | some m => (u64CheckedMul m 1000).map fun mm => { args with mtime := some mm }
    | none => some args
  match withM with
  | none => none
  | some args1 =>
    match atime with
    | some a => (u64CheckedMul a 1000).map fun aa => { args1 with atime := some aa }
    | none => some args1

/-! ## Concrete scenarios used by the theorems below -/

/-- The standby-classified error: an ERROR response with
error detail ERROR_APPLICATION and the standby exception class. -/
def standbyErr : RpcError :=
  .errorResponse .ERROR "Operation category READ is not supported in state standby"
    .ERROR_APPLICATION "org.apache.hadoop.ipc.StandbyException" "getListing"

/-- HA environment in which every connect attempt succeeds and every
call comes back as a standby exception. -/
def envAllStandby : HaEnv Unit :=
  { connect := fun _ => .ok (), callOn := fun _ => .error standbyErr }

/-- HA environment with two endpoints: the first call hits a standby,
the second endpoint is active. -/
def envOneActive : HaEnv Unit :=
  { connect := fun _ => .ok (),
    callOn := fun i => if i = 1 then .ok () else .error standbyErr }

/-- A FATAL response, as decoded by HdfsConnection::call. -/
def fatalErr : RpcError :=
  .fatalResponse .FATAL "server shutting down" .FATAL_UNKNOWN
    "java.io.IOException" "mkdirs"

/-- HA environment in which every call on the live connection returns
the FATAL response. -/
def envFatal : HaEnv Unit :=
  { connect := fun _ => .ok (), callOn := fun _ => .error fatalErr }

/-- The exact exception class name of the snapshot exception as a
server transmits it (Java binary name, with dots). -/
def snapshotClassDotted : String :=
  "org.apache.hadoop.hdfs.protocol.SnapshotException"

/-- Directory entries for the five-entry listing scenario. -/
def lsE1 : HdfsFileStatusProto := ⟨.IS_FILE, [1]⟩
/-- Second entry of the listing scenario. -/
def lsE2 : HdfsFileStatusProto := ⟨.IS_FILE, [2]⟩
/-- Third entry of the listing scenario. -/
def lsE3 : HdfsFileStatusProto := ⟨.IS_FILE, [3]⟩
/-- Fourth entry of the listing scenario. -/
def lsE4 : HdfsFileStatusProto := ⟨.IS_FILE, [4]⟩
/-- Fifth entry of the listing scenario. -/
def lsE5 : HdfsFileStatusProto := ⟨.IS_FILE, [5]⟩

/-- Listing environment delivering five entries in two pages: the
first page has three entries and remainingEntries = 2; the follow-up
call, whose cursor is the third entry's raw name, delivers the last
two entries with remainingEntries = 0. -/
def envTwoPages : LsEnv :=
  { getListing := fun cursor =>
      if cursor = [] then .ok ([lsE1, lsE2, lsE3], 2)
      else if cursor = [3] then .ok ([lsE4, lsE5], 0)
      else .ok ([], 0) }

/-- The flattening iterator over the two-page environment, right after
construction (which performs the first underlying call). -/
def iterTwoPages :
    LsIterState LsGroupState HdfsFileStatusProto FsError :=
  lsIterNew (lsGroupNext envTwoPages) LsGroupState.init

/-- Listing environment that always returns an empty partial list with
remainingEntries = 2 (the server edge case of claim C5). -/
def envEmptyPages : LsEnv := { getListing := fun _ => .ok ([], 2) }

/-- A mid-listing LsGroupIterator state: one entry received, its raw
name [1] stored as the cursor, five entries expected in total. -/
def sMidListing : LsGroupState := ⟨some [1], some 5, 1⟩

/-- A getFsStats reply whose used (7) and remaining (9) counters
differ, to separate the two fields. -/
def statsUsed7Remaining9 : GetFsStatsResponseProto := ⟨1, 7, 9, 2, 3, 4, 5, 6, 8⟩

/-- Resolver with default URI hdfs://myself@myhost/user/myself (the
configuration of the resolver unit tests). -/
def resolverMyhost : UriResolver :=
  { scheme := "hdfs",
    authority := ⟨some "myself", none, .registeredName "myhost", none⟩,
    path := ⟨true, ["user", "myself"]⟩ }

/-- The absolute path /tmp/d. -/
def pathTmpD : URIRef := ⟨none, none, ⟨true, ["tmp", "d"]⟩⟩

/-- Service environment in which /tmp/d exists and is a directory. -/
def envTmpDirExists : SvcEnv :=
  { fileInfo := fun s =>
      if s = "/tmp/d" then .ok (some ⟨.IS_DIR, []⟩) else .ok none,
    deleteRes := fun _ _ => .ok true }

/-! ## Helper lemmas -/

/-- The counter value after n draws is n - 1 whenever the n draws all
succeed. -/
theorem seqAfter_val (n : Nat) (s : InfiniteSeq) (h : seqAfter n = some s) :
    s.val = (n : Int) - 1 := by
  induction n generalizing s with
  | zero =>
    simp only [seqAfter] at h
    cases h
    simp [InfiniteSeq.new]
  | succ n ih =>
    simp only [seqAfter] at h
    obtain ⟨t, ht, h2⟩ := Option.bind_eq_some.mp h
    obtain ⟨⟨v, s'⟩, hv, hs⟩ := Option.map_eq_some'.mp h2
    simp only [InfiniteSeq.next] at hv
    obtain ⟨w, hw, hws⟩ := Option.map_eq_some'.mp hv
    simp only [i32CheckedSucc] at hw
    split at hw
    · cases hw
      cases hws
      cases hs
      have := ih t ht
      simp only [this]
      push_cast
      ring
    · cases hw

/-- Every call-id that is actually drawn equals its index. -/
theorem callIdAt_eq (k : Nat) (i : Int) (h : callIdAt k = some i) :
    i = (k : Int) := by
  unfold callIdAt at h
  obtain ⟨s, hs, h2⟩ := Option.bind_eq_some.mp h
  obtain ⟨⟨v, s'⟩, hv, hi⟩ := Option.map_eq_some'.mp h2
  simp only [InfiniteSeq.next] at hv
  obtain ⟨w, hw, hws⟩ := Option.map_eq_some'.mp hv
  simp only [i32CheckedSucc] at hw
  split at hw
  · cases hw
    cases hws
    cases hi
    have := seqAfter_val k s hs
    omega
  · cases hw

/-- In the all-standby environment the HA loop exhausts its budget and
reaches try_connect with attempts_left = 0 and last_err = None, which
is the unwrap panic (none). -/
theorem haGo_all_standby (n pos : Nat) :
    haGo envAllStandby pos none n = none := by
  induction n generalizing pos with
  | zero => rfl
  | succ n ih =>
    have hstep :
        haGo envAllStandby pos none (n + 1) =
          haGo envAllStandby (pos + 1) none n := rfl
    rw [hstep]
    exact ih (pos + 1)

/-- adjustAuthority fixes the default authority. -/
theorem adjustAuthority_default (r : UriResolver) :
    adjustAuthority r r.authority = r.authority := by
  obtain ⟨rs, ⟨ru, rpw, rh, rpo⟩, rp⟩ := r
  cases ru <;> cases rh <;> simp [adjustAuthority]

/-- adjustAuthority is idempotent. -/
theorem adjustAuthority_idem (r : UriResolver) (a : UriAuthority) :
    adjustAuthority r (adjustAuthority r a) = adjustAuthority r a := by
  obtain ⟨rs, ⟨ru, rpw, rh, rpo⟩, rp⟩ := r
  obtain ⟨u, pw, h, po⟩ := a
  cases u <;> cases ru <;> cases h <;> cases rh <;>
    simp [adjustAuthority] <;> split_ifs <;> simp_all

/-- The output of resolve always carries a scheme, and its authority is
either the default authority or an adjusted input authority. -/
theorem resolve_shape (r : UriResolver) (p : URIRef) :
    (∃ s, (r.resolve p).scheme = some s) ∧
    ((r.resolve p).authority = some r.authority ∨
      ∃ a, (r.resolve p).authority = some (adjustAuthority r a)) := by
  unfold UriResolver.resolve
  split_ifs with h1 h2
  · exact ⟨⟨r.scheme, rfl⟩, .inl rfl⟩
  · exact ⟨⟨r.scheme, rfl⟩, .inl rfl⟩
  · constructor
    · cases hp : p.scheme with
      | some s => exact ⟨s, by simp [hp]⟩
      | none => exact ⟨r.scheme, by simp [hp]⟩
    · cases ha : p.authority with
      | none => exact .inl (by simp [ha])
      | some a => exact .inr ⟨a, by simp [ha]⟩

/-- Any URIReference with a scheme and an authority of the shape
produced by resolve is a fixed point of resolve. -/
theorem resolve_fixed (r : UriResolver) (q : URIRef)
    (hs : ∃ s, q.scheme = some s)
    (ha : q.authority = some r.authority ∨
      ∃ a, q.authority = some (adjustAuthority r a)) :
    r.resolve q = q := by
  obtain ⟨s, hs⟩ := hs
  obtain ⟨qs, qa, qp⟩ := q
  simp only at hs
  subst hs
  have hrel : URIRef.isRelativePathReference ⟨some s, qa, qp⟩ = false := by
    simp [URIRef.isRelativePathReference]
  have habs : URIRef.isAbsolutePathReference ⟨some s, qa, qp⟩ = false := by
    simp [URIRef.isAbsolutePathReference]
  rcases ha with ha | ⟨a, ha⟩ <;> simp only at ha <;> subst ha <;>
    simp [UriResolver.resolve, hrel, habs, adjustAuthority_default,
      adjustAuthority_idem]

/-- Closed characterization of the request set_time builds, by cases
on the two optional arguments. -/
theorem setTimeRequest_eq (r : UriResolver) (p : URIRef) (mo ao : Option Nat) :
    setTimeRequest r p mo ao =
      match mo, ao with
      | none, none => some ⟨(r.resolvePath p).toPathString, none, none⟩
      | some m, none =>
        if m * 1000 < 2 ^ 64
        then some ⟨(r.resolvePath p).toPathString, some (m * 1000), none⟩
        else none
      | none, some a =>
        if a * 1000 < 2 ^ 64
        then some ⟨(r.resolvePath p).toPathString, none, some (a * 1000)⟩
        else none
      | some m, some a =>
        if m * 1000 < 2 ^ 64 then
          if a * 1000 < 2 ^ 64
          then some ⟨(r.resolvePath p).toPathString, some (m * 1000),
            some (a * 1000)⟩
          else none
        else none := by
  cases mo <;> cases ao <;>
    simp [setTimeRequest, u64CheckedMul] <;> split_ifs <;> simp

/-! ## Claim theorems -/

/-- C1: with every connect attempt succeeding and every call answered
by a standby exception, the HA call does not surface the last error:
after consuming the whole attempt budget (of any size) the loop
re-enters try_connect with attempts_left = 0 and last_err = None and
aborts on last_err.unwrap() (result none), instead of returning an
error value; with one standby answer and then an active endpoint (two
endpoints), the call succeeds. -/
theorem ha_standby_budget_panics :
    (∀ n, haCall envAllStandby ⟨none, 0⟩ n = none) ∧
    haCall envOneActive ⟨none, 0⟩ 2 =
      some (.ok (), ⟨some 1, 2⟩) :=
  ⟨fun n => haGo_all_standby n 0, rfl⟩

/-- C2: a call through the HA manager that yields a FATAL response
propagates the fatal error while the manager still holds its live
underlying connection (current remains Some), contrary to the claim
that the connection is discarded first. -/
theorem ha_fatal_retains_connection :
    haCall envFatal ⟨some 0, 1⟩ 3 =
      some (.error fatalErr, ⟨some 0, 1⟩) ∧
    (⟨some 0, 1⟩ : HaState).current = some 0 :=
  ⟨rfl, rfl⟩

/-- C3: the compile-time error-class map does not recognise the
snapshot exception class as the server transmits it: the key stored in
ERROR_CLASS_MAP uses slashes, so looking up the dotted class name
misses and the call returns the generic ErrorResponse instead of the
structured KnownError with the Snapshot kind. -/
theorem snapshot_class_lookup_misses :
    errorClassLookup snapshotClassDotted = none ∧
    errorClassLookup "org/apache/hadoop/hdfs/protocol/SnapshotException" =
      some .Snapshot ∧
    decodeResponse "createSnapshot"
        ⟨.ERROR, "snapshot error", .ERROR_APPLICATION, snapshotClassDotted⟩ () =
      .error (.errorResponse .ERROR "snapshot error" .ERROR_APPLICATION
        snapshotClassDotted "createSnapshot") :=
  ⟨rfl, rfl, rfl⟩

/-- C4: on the five-entry two-page listing the flattening iterator
does yield exactly the five entries and ends with size hint
(0, some 0), but immediately after the first underlying call its size
hint is (7, some 8), not the claimed (4, some 5): the group's
remaining-including-chunk count (5) is added to the unconsumed chunk
length (3). -/
theorem ls_two_page_scenario_eval :
    (lsDrive (lsGroupNext envTwoPages) 10 iterTwoPages).1 =
      [.ok lsE1, .ok lsE2, .ok lsE3, .ok lsE4, .ok lsE5] ∧
    lsSizeHint iterTwoPages = (7, some 8) ∧
    ((7 : Nat), some (8 : Nat)) ≠ ((4 : Nat), some (5 : Nat)) ∧
    lsSizeHint (lsDrive (lsGroupNext envTwoPages) 10 iterTwoPages).2 =
      (0, some 0) :=
  ⟨rfl, rfl, by decide, rfl⟩

/-- C5 counterexample: at a state whose stored cursor is [1], a call
answered by an empty partial list leaves the iterator with a cleared
cursor, so the next get_listing call is sent with the empty cursor and
not with the previous cursor [1]: the previous cursor is not
retained. -/
theorem ls_empty_page_cursor_cex :
    sMidListing.listFrom = [1] ∧
    (nextGroup envEmptyPages sMidListing).2.listFrom = [] ∧
    (nextGroup envEmptyPages sMidListing).2.listFrom ≠ sMidListing.listFrom :=
  ⟨rfl, rfl, by decide⟩

/-- C5 (amended): on a pagination step whose reply is an empty partial
list, next_group clears the stored cursor (prev_name was taken before
the call and the empty reply stores none back), so the following call
is issued with the empty initial cursor; the running count is
unchanged and the expected total becomes count + remaining.  Each
step issues exactly one get_listing call, so the iterator does not
loop within a step. -/
theorem ls_empty_page_resets_cursor (env : LsEnv) (s : LsGroupState)
    (r : Nat) (h : env.getListing s.listFrom = .ok ([], r)) :
    (nextGroup env s).2.prevName = none ∧
    (nextGroup env s).2.listFrom = [] ∧
    (nextGroup env s).2.count = s.count ∧
    (nextGroup env s).2.len = some (s.count + r) := by
  simp only [LsGroupState.listFrom] at h
  simp [nextGroup, h, LsGroupState.listFrom]

/-- C5 witness: the amended statement at the concrete empty-page
environment and mid-listing state. -/
theorem ls_empty_page_resets_cursor_witness :
    (nextGroup envEmptyPages sMidListing).2.prevName = none ∧
    (nextGroup envEmptyPages sMidListing).2.listFrom = [] ∧
    (nextGroup envEmptyPages sMidListing).2.count = sMidListing.count ∧
    (nextGroup envEmptyPages sMidListing).2.len =
      some (sMidListing.count + 2) :=
  ls_empty_page_resets_cursor envEmptyPages sMidListing 2 rfl

/-- C6: every call-id that a connection actually transmits (for
regular calls and the final close-connection message alike, all drawn
from the same counter) equals its 0-based index, so the transmitted
sequence is exactly 0, 1, 2, ...: non-negative, strictly increasing by
one, and never the reserved handshake id -3 or the retry sentinel
-1. -/
theorem callId_sequence (k : Nat) (i : Int) (h : callIdAt k = some i) :
    i = (k : Int) ∧ 0 ≤ i ∧ i ≠ handshakeCallId ∧ i ≠ retryCountSentinel := by
  have hk := callIdAt_eq k i h
  subst hk
  refine ⟨rfl, Int.natCast_nonneg k, ?_, ?_⟩ <;>
    simp [handshakeCallId, retryCountSentinel]

/-- C6 witness: the third message of a connection carries call-id 2. -/
theorem callId_sequence_witness :
    (2 : Int) = ((2 : Nat) : Int) ∧ 0 ≤ (2 : Int) ∧
    (2 : Int) ≠ handshakeCallId ∧ (2 : Int) ≠ retryCountSentinel :=
  callId_sequence 2 2 (by decide)

/-- C7: the facade's fs-status projection does not map the server's
remaining counter: on a reply with used = 7 and remaining = 9 the
returned FsStatus carries remaining = 7 (a copy of used), while every
other counter maps to its same-named field. -/
theorem fs_status_remaining_copies_used :
    getStatusFacade (.ok statsUsed7Remaining9) =
      .ok ⟨1, 7, 7, 2, 3, 4, 5, 6, 8⟩ ∧
    statsUsed7Remaining9.remaining = 9 ∧
    ((7 : Nat) ≠ 9) :=
  ⟨rfl, rfl, by decide⟩

/-- C8: deleting with recursive = false a path that resolves to an
existing directory returns the IsDir domain error tagged as a source
error, and the facade issues no delete RPC (the only service call is
the getFileInfo precheck). -/
theorem delete_nonrecursive_dir_no_delete_rpc (env : SvcEnv)
    (r : UriResolver) (p : URIRef) (fi : HdfsFileStatusProto)
    (hfi : env.fileInfo ((r.resolvePath p).toPathString) = .ok (some fi))
    (hdir : fi.fileType = .IS_DIR) :
    (deleteFacade env r p false).1 = .error ⟨.Src, .isDir p.render⟩ ∧
    ∀ c ∈ (deleteFacade env r p false).2, ∀ s b, c ≠ SvcCall.delete s b := by
  have hnd : ensure_not_dir fi p.render .Src = .error ⟨.Src, .isDir p.render⟩ := by
    simp [ensure_not_dir, hdir]
  constructor
  · simp [deleteFacade, getFileInfoFacade, hfi, hnd]
  · intro c hc s b
    simp [deleteFacade, getFileInfoFacade, hfi, hnd] at hc
    subst hc
    simp

/-- C8 witness: deleting the directory /tmp/d without recursive under
the concrete service environment. -/
theorem delete_nonrecursive_dir_no_delete_rpc_witness :
    (deleteFacade envTmpDirExists resolverMyhost pathTmpD false).1 =
      .error ⟨.Src, .isDir pathTmpD.render⟩ ∧
    ∀ c ∈ (deleteFacade envTmpDirExists resolverMyhost pathTmpD false).2,
      ∀ s b, c ≠ SvcCall.delete s b :=
  delete_nonrecursive_dir_no_delete_rpc envTmpDirExists resolverMyhost
    pathTmpD ⟨.IS_DIR, []⟩ rfl rfl

/-- C9: the resolver is idempotent: resolving the result of a resolve
returns the same fully-qualified URI reference. -/
theorem resolve_idempotent (r : UriResolver) (p : URIRef) :
    r.resolve (r.resolve p) = r.resolve p :=
  resolve_fixed r (r.resolve p) (resolve_shape r p).1 (resolve_shape r p).2

/-- C10: the set-times request transmitted by set_time carries each
present time argument multiplied by 1000 (seconds to milliseconds,
whenever the request is built at all, i.e. the checked u64 product
exists), leaves an absent argument's field unset, and addresses the
resolved path. -/
theorem set_time_millis_on_wire (r : UriResolver) (p : URIRef) :
    (∀ m ao req, setTimeRequest r p (some m) ao = some req →
      req.mtime = some (m * 1000)) ∧
    (∀ ao req, setTimeRequest r p none ao = some req → req.mtime = none) ∧
    (∀ mo a req, setTimeRequest r p mo (some a) = some req →
      req.atime = some (a * 1000)) ∧
    (∀ mo req, setTimeRequest r p mo none = some req → req.atime = none) ∧
    (∀ mo ao req, setTimeRequest r p mo ao = some req →
      req.src = (r.resolvePath p).toPathString) := by
  refine ⟨?_, ?_, ?_, ?_, ?_⟩
  · intro m ao req h
    rw [setTimeRequest_eq] at h
    cases ao <;> dsimp only at h <;> try split_ifs at h
    all_goals first
      | exact Option.noConfusion h
      | (injection h with h; subst h; rfl)
  · intro ao req h
    rw [setTimeRequest_eq] at h
    cases ao <;> dsimp only at h <;> try split_ifs at h
    all_goals first
      | exact Option.noConfusion h
      | (injection h with h; subst h; rfl)
  · intro mo a req h
    rw [setTimeRequest_eq] at h
    cases mo <;> dsimp only at h <;> try split_ifs at h
    all_goals first
      | exact Option.noConfusion h
      | (injection h with h; subst h; rfl)
  · intro mo req h
    rw [setTimeRequest_eq] at h
    cases mo <;> dsimp only at h <;> try split_ifs at h
    all_goals first
      | exact Option.noConfusion h
      | (injection h with h; subst h; rfl)
  · intro mo ao req h
    rw [setTimeRequest_eq] at h
    cases mo <;> cases ao <;> dsimp only at h <;> try split_ifs at h
    all_goals first
      | exact Option.noConfusion h
      | (injection h with h; subst h; rfl)

/-- C10 witness: set_time with 12 and 34 seconds transmits 12000 and
34000 milliseconds. -/
theorem set_time_millis_on_wire_witness :
    ({ src := "/tmp/d", mtime := some 12000, atime := some 34000 } :
      SetTimesRequestProto).mtime = some (12 * 1000) :=
  (set_time_millis_on_wire resolverMyhost pathTmpD).1 12 (some 34) _ rfl

end Hdfesse
